import Mathlib

/-!
Verification development for the weblife-stores extraction pipeline.

The definitions below are a shallow embedding of the Python sources
`src/backend/services/pdf_parser.py`, `src/backend/services/unified_scraper.py`
and `src/backend/services/targets.py`.  Python strings are modelled as
`List Char`, Python floats as `ℚ` (all numerals handled by the code are small
decimal literals, where float and rational comparison agree), Python `None`
and exceptions as `Option`.  Page interaction (Playwright locator probes) is
modelled by explicit oracle functions giving, for each selector or text
pattern of the source, the text the probe would observe (`Option` is `none`
when the element is not visible or the probe raised).
-/

namespace Weblife

/-- Python strings are modelled as lists of characters. -/
abbrev Str := List Char

/-- Python `str.isspace` for the ASCII whitespace class used by `str.strip()`
and `str.split()`. -/
def pyIsSpace (c : Char) : Bool :=
  c = ' ' || c = '\t' || c = '\n' || c = '\r' || c = '\x0b' || c = '\x0c'

/-- Python `str.strip()`. -/
def pyStrip (s : Str) : Str :=
  ((s.dropWhile pyIsSpace).reverse.dropWhile pyIsSpace).reverse

/-- Python `str.lower()` (inputs are ASCII). -/
def pyLower (s : Str) : Str := s.map Char.toLower

/-- Python `str.upper()` (inputs are ASCII). -/
def pyUpper (s : Str) : Str := s.map Char.toUpper

/-- Helper for `pySplitWs`: accumulates the current word (reversed). -/
def pySplitWsAux : Str → Str → List Str
  | [], acc => if acc.isEmpty then [] else [acc.reverse]
  | c :: cs, acc =>
    if pyIsSpace c then
      if acc.isEmpty then pySplitWsAux cs [] else acc.reverse :: pySplitWsAux cs []
    else pySplitWsAux cs (c :: acc)

/-- Python `str.split()` with no argument: split on whitespace runs, dropping
empty fields. -/
def pySplitWs (s : Str) : List Str := pySplitWsAux s []

/-- Whether `s` starts with `pat` (Python `str.startswith`). -/
def strStartsWith : Str → Str → Bool
  | _, [] => true
  | [], _ :: _ => false
  | c :: cs, d :: ds => c = d && strStartsWith cs ds

/-- Python substring test `needle in hay`. -/
def containsSub : Str → Str → Bool
  | [], needle => needle.isEmpty
  | h :: t, needle => strStartsWith (h :: t) needle || containsSub t needle

/-- Python `str.endswith`. -/
def strEndsWith (s suf : Str) : Bool := strStartsWith s.reverse suf.reverse

/-- Helper for `splitOnChar`. -/
def splitOnCharAux (sep : Char) : Str → Str → List Str
  | [], acc => [acc.reverse]
  | c :: cs, acc =>
    if c = sep then acc.reverse :: splitOnCharAux sep cs []
    else splitOnCharAux sep cs (c :: acc)

/-- Python `str.split(sep)` for a one character separator (keeps empty
fields, result is never the empty list). -/
def splitOnChar (sep : Char) (s : Str) : List Str := splitOnCharAux sep s []

/-- Python `s.split(sep)[-1]`. -/
def lastSegment (s : Str) : Str := (splitOnChar '/' s).getLastD []

/-! ## pdf_parser.py : `PDFParser._deduplicate_matches`

Source (lines 152-172): iterate over the candidate list, keep a candidate
unless, against some already kept candidate, the word sets obtained from
`match.lower().split()` satisfy
`len(match_words & existing_words) / max(len(match_words), len(existing_words)) > 0.8`.
If both word sets are empty, `max(...)` is `0` and Python raises
`ZeroDivisionError`; the embedding returns `Option.none` for that run.
-/

/-- The word set `set(s.lower().split())` of a candidate. -/
def specWords (s : Str) : Finset Str := (pySplitWs (pyLower s)).toFinset

/-- Numerator `len(match_words & existing_words)` of the similarity check. -/
def simNum (a b : Str) : ℕ := ((specWords a) ∩ (specWords b)).card

/-- Denominator `max(len(match_words), len(existing_words))`. -/
def simDen (a b : Str) : ℕ := max (specWords a).card (specWords b).card

/-- The word overlap ratio of the similarity check, as an exact rational
(the float arithmetic of the source agrees with it on all feasible word
counts). -/
def simQ (a b : Str) : ℚ := (simNum a b : ℚ) / (simDen a b : ℚ)

/-- One similarity test of `_deduplicate_matches`; `none` models the
`ZeroDivisionError` raised when both candidates have empty word sets.  The
source compares `len(..&..) / max(..) > 0.8`; with a nonzero denominator this
is exactly the integer comparison `4 * den < 5 * num` (see `isDup_eq_ratio`),
which is the form used here so that the function evaluates by kernel
reduction. -/
def isDup (a b : Str) : Option Bool :=
  if simDen a b = 0 then Option.none
  else some (decide (4 * simDen a b < 5 * simNum a b))

/-- The inner `for existing in unique_matches` loop: stops at the first
duplicate found, propagating a `ZeroDivisionError`. -/
def anyDup (m : Str) : List Str → Option Bool
  | [] => some false
  | e :: es =>
    match isDup m e with
    | Option.none => Option.none
    | some true => some true
    | some false => anyDup m es

/-- The outer loop of `_deduplicate_matches`: `kept` is `unique_matches`
in insertion order. -/
def dedupGo (kept : List Str) : List Str → Option (List Str)
  | [] => some kept
  | m :: rest =>
    match anyDup m kept with
    | Option.none => Option.none
    | some true => dedupGo kept rest
    | some false => dedupGo (kept ++ [m]) rest

/-- `PDFParser._deduplicate_matches` (the early return for an empty input
list coincides with `dedupGo [] []`). -/
def deduplicate_matches (ms : List Str) : Option (List Str) :=
  dedupGo [] ms

/-! Lemmas about deduplication. -/

theorem simNum_comm (a b : Str) : simNum a b = simNum b a := by
  unfold simNum
  rw [Finset.inter_comm]

theorem simDen_comm (a b : Str) : simDen a b = simDen b a := by
  unfold simDen
  exact Nat.max_comm _ _

theorem simQ_comm (a b : Str) : simQ a b = simQ b a := by
  unfold simQ
  rw [simNum_comm, simDen_comm]

theorem anyDup_false_iff (m : Str) (l : List Str) :
    anyDup m l = some false ↔ ∀ e ∈ l, isDup m e = some false := by
  induction l with
  | nil => simp [anyDup]
  | cons e es ih =>
    simp only [anyDup]
    cases h : isDup m e with
    | none => simp [h]
    | some b =>
      cases b with
      | false => simp [h, ih]
      | true => simp [h]

/-- Relation holding between an earlier kept candidate `a` and a later one
`b`: the similarity test that ran when `b` was admitted returned `False`. -/
def keptRel (a b : Str) : Prop := isDup b a = some false

theorem dedupGo_spec (rest : List Str) : ∀ kept out, dedupGo kept rest = some out →
    (∃ extra, out = kept ++ extra ∧ extra.Sublist rest) ∧
    (List.Pairwise keptRel kept → List.Pairwise keptRel out) := by
  induction rest with
  | nil =>
    intro kept out h
    simp only [dedupGo, Option.some.injEq] at h
    subst h
    exact ⟨⟨[], by simp⟩, fun hp => hp⟩
  | cons m rs ih =>
    intro kept out h
    simp only [dedupGo] at h
    cases ha : anyDup m kept with
    | none => rw [ha] at h; exact absurd h (by simp)
    | some b =>
      rw [ha] at h
      cases b with
      | true =>
        obtain ⟨⟨extra, hex, hsub⟩, hpair⟩ := ih kept out h
        exact ⟨⟨extra, hex, hsub.cons m⟩, hpair⟩
      | false =>
        obtain ⟨⟨extra, hex, hsub⟩, hpair⟩ := ih (kept ++ [m]) out h
        refine ⟨⟨m :: extra, by simpa using hex, hsub.cons₂ m⟩, ?_⟩
        intro hk
        apply hpair
        rw [List.pairwise_append]
        refine ⟨hk, by simp, ?_⟩
        intro a ha' b hb
        simp only [List.mem_singleton] at hb
        subst hb
        exact (anyDup_false_iff _ kept).mp ha a ha'

theorem dedupGo_of_pairwise (rest : List Str) :
    ∀ kept, List.Pairwise keptRel (kept ++ rest) → dedupGo kept rest = some (kept ++ rest) := by
  induction rest with
  | nil => intro kept _; simp [dedupGo]
  | cons m rs ih =>
    intro kept hp
    have hsplit := List.pairwise_append.mp hp
    have hm : ∀ a ∈ kept, keptRel a m := fun a ha =>
      hsplit.2.2 a ha m (by simp)
    have hany : anyDup m kept = some false :=
      (anyDup_false_iff m kept).mpr fun e he => hm e he
    simp only [dedupGo, hany]
    have hassoc : kept ++ [m] ++ rs = kept ++ m :: rs := by simp
    have := ih (kept ++ [m]) (by rw [hassoc]; exact hp)
    rw [hassoc] at this
    exact this

theorem isDup_eq_ratio (a b : Str) (h : simDen a b ≠ 0) :
    isDup a b = some (decide ((4 : ℚ) / 5 < simQ a b)) := by
  unfold isDup
  rw [if_neg h]
  have hd : (0 : ℚ) < (simDen a b : ℚ) := by
    exact_mod_cast Nat.pos_of_ne_zero h
  congr 1
  rw [decide_eq_decide]
  unfold simQ
  rw [div_lt_div_iff₀ (by norm_num) hd,
    show ((4 : ℚ) * (simDen a b : ℚ)) = ((4 * simDen a b : ℕ) : ℚ) by push_cast; ring,
    show ((simNum a b : ℚ) * 5) = ((5 * simNum a b : ℕ) : ℚ) by push_cast; ring,
    Nat.cast_lt]

theorem of_isDup_false (a b : Str) (h : isDup a b = some false) :
    simQ a b ≤ 4 / 5 := by
  unfold isDup at h
  by_cases hd : simDen a b = 0
  · rw [if_pos hd] at h
    exact absurd h (by simp)
  · rw [if_neg hd] at h
    simp only [Option.some.injEq, decide_eq_false_iff_not, not_lt] at h
    have hdq : (0 : ℚ) < (simDen a b : ℚ) := by
      exact_mod_cast Nat.pos_of_ne_zero hd
    unfold simQ
    rw [div_le_div_iff₀ hdq (by norm_num)]
    have : (5 : ℚ) * (simNum a b : ℚ) ≤ 4 * (simDen a b : ℚ) := by exact_mod_cast h
    linarith

/-- C6 (amended): the deduplicated output is a subsequence of the input (so
the input order is preserved), and any two surviving candidates have a word
overlap ratio of at most 0.8, so of any pair sharing strictly more than 80
percent of their words at most one survives.  The original claim fails in two
ways shown in `dedup_claim_counterexample`: a pair sharing exactly 80 percent
of its words both survive, and the survivor of a greater-than-80-percent pair
need not be the first occurrence. -/
theorem dedup_pairwise_dissimilar (l out : List Str)
    (h : deduplicate_matches l = some out) :
    out.Sublist l ∧ out.Pairwise (fun a b => simQ a b ≤ 4 / 5) := by
  obtain ⟨⟨extra, hex, hsub⟩, hpair⟩ := dedupGo_spec l [] out h
  constructor
  · rw [hex]
    simpa using hsub
  · have hp := hpair (by simp)
    exact hp.imp fun {a b} hr => by
      have := of_isDup_false b a hr
      rwa [simQ_comm] at this

theorem dedup_pairwise_dissimilar_witness :
    deduplicate_matches ["ab cd".toList, "ab cd".toList, "xy".toList]
        = some ["ab cd".toList, "xy".toList] ∧
    (["ab cd".toList, "xy".toList] : List Str).Sublist
        ["ab cd".toList, "ab cd".toList, "xy".toList] ∧
    (["ab cd".toList, "xy".toList] : List Str).Pairwise (fun a b => simQ a b ≤ 4 / 5) := by
  have h := dedup_pairwise_dissimilar ["ab cd".toList, "ab cd".toList, "xy".toList]
      ["ab cd".toList, "xy".toList] (by decide)
  exact ⟨by decide, h.1, h.2⟩

/-- C6 counterexample: the claim as stated is false on the code.  First
conjunct: the two candidates share exactly 80 percent of their words (the
threshold of the claim), yet both appear in the deduplicated output, because
the source tests the ratio with a strict `> 0.8`.  Second conjunct: of a pair
sharing 90 percent of its words the survivor is the second occurrence, not
the first, because the first occurrence was removed as a duplicate of an
earlier, different candidate. -/
theorem dedup_claim_counterexample :
    (simQ "p q r s t".toList "p q r s u".toList = 4 / 5 ∧
      deduplicate_matches ["p q r s t".toList, "p q r s u".toList] =
        some ["p q r s t".toList, "p q r s u".toList]) ∧
    (4 / 5 < simQ "a b c d e f g h i j".toList "b c d e f g h i j u".toList ∧
      deduplicate_matches
          ["a b c d e f g h i v".toList, "a b c d e f g h i j".toList,
            "b c d e f g h i j u".toList] =
        some ["a b c d e f g h i v".toList, "b c d e f g h i j u".toList]) := by
  refine ⟨⟨?_, by decide⟩, ⟨?_, by decide⟩⟩
  · have h1 : simNum "p q r s t".toList "p q r s u".toList = 4 := by decide
    have h2 : simDen "p q r s t".toList "p q r s u".toList = 5 := by decide
    unfold simQ
    rw [h1, h2]
    norm_num
  · have h1 : simNum "a b c d e f g h i j".toList "b c d e f g h i j u".toList = 9 := by decide
    have h2 : simDen "a b c d e f g h i j".toList "b c d e f g h i j u".toList = 10 := by decide
    unfold simQ
    rw [h1, h2]
    norm_num

/-- C7: specification deduplication is idempotent.  When a run of
`_deduplicate_matches` returns a list (rather than raising the
`ZeroDivisionError` possible for two whitespace-only candidates), running it
again on that output returns the output unchanged. -/
theorem dedup_idempotent (l out : List Str) (h : deduplicate_matches l = some out) :
    deduplicate_matches out = some out := by
  obtain ⟨_, hpair⟩ := dedupGo_spec l [] out h
  have hp := hpair (by simp)
  have := dedupGo_of_pairwise out [] (by simpa using hp)
  simpa [deduplicate_matches] using this

theorem dedup_idempotent_witness :
    deduplicate_matches ["ab cd".toList, "ab cd".toList] = some ["ab cd".toList] ∧
    deduplicate_matches ["ab cd".toList] = some ["ab cd".toList] :=
  ⟨by decide,
    dedup_idempotent ["ab cd".toList, "ab cd".toList] ["ab cd".toList] (by decide)⟩

/-! ## Python JSON values

JSON-LD nodes and the values read from them are modelled by `PyVal`.
Truthiness, `dict.get` and `a or b` follow Python semantics.  Calling
`.get` on a non-dict value raises `AttributeError` in Python; the scraper
embeddings below return `Option.none` at exactly the unguarded call sites
where that can happen, and `pyGet` itself is only applied where the source
guards the receiver or where a crash is modelled separately.
-/

/-- Python values appearing in parsed JSON-LD data. -/
inductive PyVal where
  | none : PyVal
  | num : ℚ → PyVal
  | str : Str → PyVal
  | list : List PyVal → PyVal
  | dict : List (Str × PyVal) → PyVal

/-- Python truthiness of a `PyVal`. -/
def pyTruthy : PyVal → Bool
  | .none => false
  | .num q => q ≠ 0
  | .str s => !s.isEmpty
  | .list l => !l.isEmpty
  | .dict d => !d.isEmpty

/-- Python `isinstance(v, dict)`. -/
def isDict : PyVal → Bool
  | .dict _ => true
  | _ => false

/-- Python `d.get(k)` for a dict (first binding wins); `none` on any other
receiver, standing for the guarded or separately modelled non-dict case. -/
def pyGet (v : PyVal) (k : Str) : PyVal :=
  match v with
  | .dict d =>
    match d.find? (fun e => e.1 = k) with
    | some e => e.2
    | Option.none => PyVal.none
  | _ => PyVal.none

/-- Python `a or b`. -/
def pyOr (a b : PyVal) : PyVal := if pyTruthy a then a else b

/-- Decimal digits of a natural number, most significant first (fuel bound
is far above any digit count reached here). -/
def natDigitsAux : ℕ → ℕ → Str
  | 0, _ => []
  | fuel + 1, n => if n = 0 then [] else natDigitsAux fuel (n / 10) ++ [Char.ofNat (48 + n % 10)]

/-- Python `str` of a natural number. -/
def natRepr (n : ℕ) : Str := if n = 0 then ['0'] else natDigitsAux 30 n

/-- Fractional decimal digits of `num / den` (with `num < den`) by long
division, exact whenever the expansion terminates within the fuel. -/
def fracDigitsAux : ℕ → ℕ → ℕ → Str
  | 0, _, _ => []
  | fuel + 1, num, den =>
    if num = 0 then []
    else Char.ofNat (48 + (num * 10) / den) :: fracDigitsAux fuel ((num * 10) % den) den

/-- Python `str` of a numeric value.  Integral values print without a
fractional part (Python ints; Python floats would add `.0`, a difference no
modelled code path inspects). -/
def ratRepr (q : ℚ) : Str :=
  let sign : Str := if q.num < 0 then ['-'] else []
  let a := q.num.natAbs
  let frac := fracDigitsAux 20 (a % q.den) q.den
  sign ++ natRepr (a / q.den) ++ (if frac.isEmpty then [] else '.' :: frac)

/-- Python `str(v)`.  The repr of container values is not inspected by any
modelled code path (JSON-LD price, currency and availability values are
strings or numbers there), so it is an opaque marker. -/
def pyStr : PyVal → Str
  | .none => "None".toList
  | .num q => ratRepr q
  | .str s => s
  | .list _ => "[unmodelled container repr]".toList
  | .dict _ => "[unmodelled container repr]".toList

/-! ## unified_scraper.py : `money_to_float` (lines 22-55)

The six regular expressions are, in order (comma removal has already
happened, so the `[0-9,]` classes reduce to digit runs):
dollar-then-number, `USD`-then-number, `Price:`-then-number,
`Starting at`-then-number, number-then-`USD`, bare number; all with
IGNORECASE, all with the number group `[0-9][0-9,]*\.?[0-9]` followed by
an optional third fractional-digit bound written in the source as a
two-digit maximum.  `re.search` takes the leftmost match; a greedy number
token backtracks only in the number-then-`USD` pattern.
-/

/-- Python `s.replace(",", "")`. -/
def removeCommas (s : Str) : Str := s.filter (fun c => c ≠ ',')

/-- Numeric value of a digit run. -/
def natOfDigits (ds : Str) : ℕ := ds.foldl (fun a c => a * 10 + (c.toNat - 48)) 0

/-- The greedy (maximal) number-group match anchored at the head of `s`:
a digit run, then optionally a dot and up to two more digits. -/
def numGroupAt (s : Str) : Option Str :=
  match s with
  | c :: _ =>
    if c.isDigit then
      let d1 := s.takeWhile Char.isDigit
      let r1 := s.dropWhile Char.isDigit
      match r1 with
      | '.' :: r2 => some (d1 ++ '.' :: (r2.takeWhile Char.isDigit).take 2)
      | _ => some d1
    else Option.none
  | [] => Option.none

/-- Whether `t` is, in full, a match of the number group (digits, optional
dot, at most two fractional digits). -/
def isNumShape (t : Str) : Bool :=
  match splitOnChar '.' t with
  | [i] => !i.isEmpty && i.all Char.isDigit
  | [i, f] => !i.isEmpty && i.all Char.isDigit && f.all Char.isDigit && decide (f.length ≤ 2)
  | _ => false

/-- Exact rational value of a matched number group (Python `float(...)` of
it; the values are short decimals, on which float and rational agree). -/
def parseDec (g : Str) : ℚ :=
  match splitOnChar '.' g with
  | [i] => (natOfDigits i : ℚ)
  | [i, f] => mkRat (natOfDigits i * 10 ^ f.length + natOfDigits f) (10 ^ f.length)
  | _ => 0

/-- Case-insensitive literal match: drop `pat` from the head of `s`. -/
def dropLitCI : Str → Str → Option Str
  | [], s => some s
  | _ :: _, [] => Option.none
  | p :: ps, c :: cs => if c.toLower = p.toLower then dropLitCI ps cs else Option.none

/-- Regex `\s*`. -/
def dropWs (s : Str) : Str := s.dropWhile pyIsSpace

/-- Regex `\$?`. -/
def optDollar : Str → Str
  | '$' :: r => r
  | s => s

/-- Pattern 1 anchored at a position: dollar sign, spaces, number group. -/
def matchDollarAt (s : Str) : Option Str :=
  match s with
  | '$' :: r => numGroupAt (dropWs r)
  | _ => Option.none

/-- Pattern 2 anchored: `USD`, spaces, optional dollar, spaces, number. -/
def matchUsdAt (s : Str) : Option Str :=
  (dropLitCI "USD".toList s).bind fun r => numGroupAt (dropWs (optDollar (dropWs r)))

/-- Pattern 3 anchored: `Price:`, spaces, optional dollar, spaces, number. -/
def matchPriceAt (s : Str) : Option Str :=
  (dropLitCI "Price:".toList s).bind fun r => numGroupAt (dropWs (optDollar (dropWs r)))

/-- Pattern 4 anchored: `Starting at`, spaces, optional dollar, spaces,
number. -/
def matchStartingAt (s : Str) : Option Str :=
  (dropLitCI "Starting at".toList s).bind fun r => numGroupAt (dropWs (optDollar (dropWs r)))

/-- Whether `\s*USD` matches at the head of `r` (case-insensitively). -/
def usdAfter (r : Str) : Bool := (dropLitCI "USD".toList (dropWs r)).isSome

/-- Backtracking for pattern 5: try shrinking number-group candidates
`s.take k`, longest first, requiring `\s*USD` after the group. -/
def numUsdLens (s : Str) : ℕ → Option Str
  | 0 => Option.none
  | k + 1 =>
    let t := s.take (k + 1)
    if isNumShape t && usdAfter (s.drop (k + 1)) then some t else numUsdLens s k

/-- Pattern 5 anchored: number group followed by `\s*USD`. -/
def matchNumUsdAt (s : Str) : Option Str :=
  match numGroupAt s with
  | some tok => numUsdLens s tok.length
  | Option.none => Option.none

/-- Pattern 6 anchored: bare number group. -/
def matchBareNumAt (s : Str) : Option Str := numGroupAt s

/-- `re.search` leftmost-match semantics over an anchored matcher. -/
def searchAt (f : Str → Option Str) : Str → Option Str
  | [] => f []
  | c :: cs =>
    match f (c :: cs) with
    | some g => some g
    | Option.none => searchAt f cs

/-- The ordered pattern list of `money_to_float`. -/
def mtfPatterns : List (Str → Option Str) :=
  [matchDollarAt, matchUsdAt, matchPriceAt, matchStartingAt, matchNumUsdAt, matchBareNumAt]

/-- The pattern loop of `money_to_float`: first pattern whose leftmost match
parses into the plausibility range `[10, 50000]` wins; an out-of-range match
falls through to the next pattern. -/
def mtfGo (t : Str) : List (Str → Option Str) → Option ℚ
  | [] => Option.none
  | p :: ps =>
    match searchAt p t with
    | some g =>
      let price := parseDec g
      if 10 ≤ price ∧ price ≤ 50000 then some price else mtfGo t ps
    | Option.none => mtfGo t ps

/-- `money_to_float` (lines 22-55): `None` for Python `None`; numeric
JSON-LD inputs are converted by `float(...)` and returned directly, with no
range check; any other input is stringified, stripped, comma-stripped and
run through the pattern loop. -/
def money_to_float (txt : PyVal) : Option ℚ :=
  match txt with
  | .none => Option.none
  | .num q => some q
  | v => mtfGo (removeCommas (pyStrip (pyStr v))) mtfPatterns

/-- `pick_currency` (lines 58-64). -/
def pick_currency (txt : PyVal) : Option Str :=
  match txt with
  | .none => Option.none
  | v =>
    let s := pyStr v
    if containsSub s ['$'] || containsSub (pyUpper s) "USD".toList then some "USD".toList
    else Option.none

/-! ## unified_scraper.py : JSON-LD product node selection (lines 86-95) -/

/-- Python `"Product" == v` for a list element of an `@type` list. -/
def isProductStr : PyVal → Bool
  | .str s => s = "Product".toList
  | _ => false

/-- The `@type` test of `extract_product_from_jsonld`. -/
def isProductType : PyVal → Bool
  | .str s => pyLower s = "product".toList
  | .list l => l.any isProductStr
  | _ => false

/-- `extract_product_from_jsonld` (lines 86-95): first node whose truthy
`@type` is the string `product` (case-insensitively) or a list containing
the string `Product`; an empty dict when no node qualifies. -/
def extract_product_from_jsonld : List PyVal → PyVal
  | [] => .dict []
  | node :: rest =>
    let t := pyGet node "@type".toList
    if pyTruthy t && isProductType t then node else extract_product_from_jsonld rest

/-! ## unified_scraper.py : the offer record and the Lenovo PDP scraper

`scrape_lenovo_pdp` (lines 98-290).  The page is rendered by the probe
structure `LenovoProbes`: for the i-th selector (or text pattern, or literal
phrase) of each of the source's cascades, the probe gives the text the
corresponding Playwright locator would yield (`none` when the element is not
visible or the probe raised; a visible element whose `text_content()` is
`None` is represented by `some []`, which the source treats identically to
an empty string everywhere it is consumed).
-/

/-- The dictionary returned by `scrape_lenovo_pdp` / `scrape_hp_pdp`. -/
structure OfferRecord where
  source_url : Str
  price : Option ℚ
  currency : PyVal
  availability : Option Str
  shipping_eta : Option Str
  promo_badges : List Str
  seller : Str
  aggregate_rating : PyVal
  aggregate_review_count : PyVal
  fetched_at : Str

/-- Truthiness of an optional string (Python `None` and `""` are falsy). -/
def strTruthy : Option Str → Bool
  | some t => !t.isEmpty
  | Option.none => false

/-- Lift an optional string to a `PyVal`. -/
def liftStr : Option Str → PyVal
  | some s => .str s
  | Option.none => .none

/-- Python `a or b` on optional floats (`0.0` is falsy). -/
def orFloat (a b : Option ℚ) : Option ℚ :=
  match a with
  | some q => if q ≠ 0 then a else b
  | Option.none => b

/-- Python `any(term in hay for term in terms)`. -/
def anyTermIn (hay : Str) (terms : List Str) : Bool :=
  terms.any (fun t => containsSub hay t)

/-- Per-page probes for `scrape_lenovo_pdp`, indexed in the order the
selector lists, text patterns and literal phrases appear in the source. -/
structure LenovoProbes where
  priceSel : ℕ → Option Str
  priceTextPat : ℕ → Option Str
  availSel : ℕ → Option Str
  availPhraseVis : ℕ → Bool
  shipSel : ℕ → Option Str
  shipPat : ℕ → Option Str
  promoVis : ℕ → Bool

/-- The Lenovo price selector cascade (lines 137-146): a visible element
always assigns `price_text`; the loop stops early only when the text is
truthy and contains a dollar sign, otherwise a later selector may
reassign. -/
def lenovoPriceSelLoop (probe : ℕ → Option Str) : ℕ → ℕ → Option Str → Option Str
  | _, 0, acc => acc
  | i, fuel + 1, acc =>
    match probe i with
    | Option.none => lenovoPriceSelLoop probe (i + 1) fuel acc
    | some t =>
      if !t.isEmpty && t.contains '$' then some t
      else lenovoPriceSelLoop probe (i + 1) fuel (some t)

/-- A loop that stops at the first visible element and takes its text. -/
def firstVisible (probe : ℕ → Option Str) : ℕ → ℕ → Option Str
  | _, 0 => Option.none
  | i, fuel + 1 =>
    match probe i with
    | some t => some t
    | Option.none => firstVisible probe (i + 1) fuel

/-- `price_text` of `scrape_lenovo_pdp`: the selector cascade over the nine
selectors, then (only when the result is falsy) the three text-pattern
locators, first visible one winning; if no pattern is visible the cascade
value remains. -/
def lenovoPriceText (p : LenovoProbes) : Option Str :=
  let pt0 := lenovoPriceSelLoop p.priceSel 0 9 Option.none
  if strTruthy pt0 then pt0
  else
    match firstVisible p.priceTextPat 0 3 with
    | some t => some t
    | Option.none => pt0

/-- `offers` of `scrape_lenovo_pdp` (lines 117-121). -/
def lenovoOffers (lds : List PyVal) : PyVal :=
  let prod := extract_product_from_jsonld lds
  if pyTruthy prod then pyOr (pyGet prod "offers".toList) (.dict []) else .dict []

/-- `agg` of `scrape_lenovo_pdp` (lines 117-121). -/
def lenovoAgg (lds : List PyVal) : PyVal :=
  let prod := extract_product_from_jsonld lds
  if pyTruthy prod then pyOr (pyGet prod "aggregateRating".toList) (.dict []) else .dict []

/-- Availability phrases of the in-stock branch of the selector loop. -/
def availInTerms : List Str := ["in stock".toList, "available".toList, "add to cart".toList]

/-- Availability phrases of the out-of-stock branch of the selector loop. -/
def availOutTerms : List Str := ["out of stock".toList, "unavailable".toList, "sold out".toList]

/-- The availability selector loop (lines 180-194). -/
def lenovoAvailSelLoop (probe : ℕ → Option Str) : ℕ → ℕ → Option Str
  | _, 0 => Option.none
  | i, fuel + 1 =>
    match probe i with
    | Option.none => lenovoAvailSelLoop probe (i + 1) fuel
    | some t =>
      if !t.isEmpty then
        if anyTermIn (pyLower t) availInTerms then some "InStock".toList
        else if anyTermIn (pyLower t) availOutTerms then some "OutOfStock".toList
        else lenovoAvailSelLoop probe (i + 1) fuel
      else lenovoAvailSelLoop probe (i + 1) fuel

/-- The phrase-to-code table of the text-based availability fallback
(lines 198-208). -/
def lenovoPhraseTable : List (Str × Str) :=
  [("Add to cart".toList, "InStock".toList),
   ("Buy now".toList, "InStock".toList),
   ("In Stock".toList, "InStock".toList),
   ("Available".toList, "InStock".toList),
   ("Out of stock".toList, "OutOfStock".toList),
   ("Sold out".toList, "OutOfStock".toList),
   ("Temporarily unavailable".toList, "OutOfStock".toList),
   ("Discontinued".toList, "Discontinued".toList),
   ("Coming Soon".toList, "PreOrder".toList)]

/-- First table phrase whose visibility probe fires gives its code. -/
def phraseScan (vis : ℕ → Bool) : List (Str × Str) → ℕ → Option Str
  | [], _ => Option.none
  | (_, code) :: rest, i => if vis i then some code else phraseScan vis rest (i + 1)

/-- The availability computation of `scrape_lenovo_pdp` (lines 166-215):
structured data first, then (only while availability is still falsy) the
selector loop, then the phrase fallback. -/
def lenovoAvailability (lds : List PyVal) (p : LenovoProbes) : Option Str :=
  let offers := lenovoOffers lds
  let av0 :=
    if pyTruthy offers && pyTruthy (pyGet offers "availability".toList) then
      some (lastSegment (pyStr (pyGet offers "availability".toList)))
    else Option.none
  let av1 :=
    if strTruthy av0 then av0
    else
      match lenovoAvailSelLoop p.availSel 0 4 with
      | some v => some v
      | Option.none => av0
  if strTruthy av1 then av1
  else
    match phraseScan p.availPhraseVis lenovoPhraseTable 0 with
    | some v => some v
    | Option.none => av1

/-- Content words of the shipping selector test (line 232). -/
def shipTerms : List Str := ["ship".toList, "deliver".toList, "days".toList, "weeks".toList]

/-- The shipping selector loop (lines 227-237). -/
def lenovoShipSelLoop (probe : ℕ → Option Str) : ℕ → ℕ → Option Str
  | _, 0 => Option.none
  | i, fuel + 1 =>
    match probe i with
    | Option.none => lenovoShipSelLoop probe (i + 1) fuel
    | some t =>
      if !t.isEmpty && anyTermIn (pyLower t) shipTerms then some (pyStrip t)
      else lenovoShipSelLoop probe (i + 1) fuel

/-- The shipping text-pattern fallback (lines 241-256): a visible pattern
always assigns the stripped text; the loop breaks only when it is shorter
than 100 characters, otherwise a later pattern may reassign. -/
def lenovoShipPatLoop (probe : ℕ → Option Str) : ℕ → ℕ → Option Str → Option Str
  | _, 0, acc => acc
  | i, fuel + 1, acc =>
    match probe i with
    | Option.none => lenovoShipPatLoop probe (i + 1) fuel acc
    | some t =>
      let s := pyStrip t
      if s.length < 100 then some s else lenovoShipPatLoop probe (i + 1) fuel (some s)

/-- `shipping_eta` of `scrape_lenovo_pdp`. -/
def lenovoShipping (p : LenovoProbes) : Option Str :=
  let s0 := lenovoShipSelLoop p.shipSel 0 5
  if strTruthy s0 then s0 else lenovoShipPatLoop p.shipPat 0 4 s0

/-- The promo phrase list of `scrape_lenovo_pdp` (lines 259-261). -/
def lenovoPromoTable : List Str :=
  ["Weekly Deals".toList, "Sale".toList, "Save $".toList, "Coupon".toList,
   "Student Discount".toList, "Free shipping".toList]

/-- Collect the promo phrases whose visibility probe fires. -/
def promoScan (vis : ℕ → Bool) : List Str → ℕ → List Str
  | [], _ => []
  | t :: rest, i =>
    if vis i then t :: promoScan vis rest (i + 1) else promoScan vis rest (i + 1)

/-- `price_val` of `scrape_lenovo_pdp` (line 268). -/
def lenovoPriceVal (lds : List PyVal) : PyVal :=
  let offers := lenovoOffers lds
  if isDict offers then pyGet offers "price".toList else PyVal.none

/-- `cur` of `scrape_lenovo_pdp` (line 270). -/
def lenovoCur (lds : List PyVal) : PyVal :=
  let offers := lenovoOffers lds
  if isDict offers then pyGet offers "priceCurrency".toList else PyVal.none

/-- `scrape_lenovo_pdp` (lines 98-290).  `Option.none` models the
`AttributeError` raised at line 168 (or line 276) when a truthy non-dict
`offers` (or `aggregateRating`) value from JSON-LD receives `.get`; the
exception propagates to the per-target handler in `main`. -/
def scrape_lenovo_pdp (lds : List PyVal) (p : LenovoProbes) (url now : Str) :
    Option OfferRecord :=
  let offers := lenovoOffers lds
  let agg := lenovoAgg lds
  if pyTruthy offers && !isDict offers then Option.none
  else if pyTruthy agg && !isDict agg then Option.none
  else
    let price_text := lenovoPriceText p
    let price := orFloat (money_to_float (lenovoPriceVal lds)) (money_to_float (liftStr price_text))
    let currency :=
      pyOr (pyOr (lenovoCur lds) (liftStr (pick_currency (lenovoPriceVal lds))))
        (liftStr (pick_currency (liftStr price_text)))
    some
      { source_url := url
        price := price
        currency := currency
        availability := lenovoAvailability lds p
        shipping_eta := lenovoShipping p
        promo_badges := promoScan p.promoVis lenovoPromoTable 0
        seller := "Lenovo".toList
        aggregate_rating := if pyTruthy agg then pyGet agg "ratingValue".toList else PyVal.none
        aggregate_review_count :=
          if pyTruthy agg then
            pyOr (pyGet agg "reviewCount".toList) (pyGet agg "ratingCount".toList)
          else PyVal.none
        fetched_at := now }

/-! ## unified_scraper.py : the HP PDP scraper (lines 293-373) -/

/-- Per-page probes for `scrape_hp_pdp`, in source order: the five price
selectors, the single price text pattern, the three availability phrase
visibility checks, the shipping pattern, and the five promo phrases. -/
structure HpProbes where
  priceSel : ℕ → Option Str
  priceTextPat : Option Str
  addToCartVis : Bool
  outOfStockVis : Bool
  customizeVis : Bool
  shipPat : Option Str
  promoVis : ℕ → Bool

/-- `price_text` of `scrape_hp_pdp` (lines 297-318): first visible of the
five selectors wins unconditionally; the text pattern runs only if the
result is falsy. -/
def hpPriceText (p : HpProbes) : Option Str :=
  let pt0 := firstVisible p.priceSel 0 5
  if strTruthy pt0 then pt0
  else
    match p.priceTextPat with
    | some t => some t
    | Option.none => pt0

/-- The availability chain of `scrape_hp_pdp` (lines 323-332). -/
def hpAvailability (p : HpProbes) : Str :=
  if p.addToCartVis then "IN_STOCK".toList
  else if p.outOfStockVis then "OUT_OF_STOCK".toList
  else if p.customizeVis then "CUSTOMIZABLE".toList
  else "UNKNOWN".toList

/-- The promo phrase list of `scrape_hp_pdp` (line 343). -/
def hpPromoTable : List Str :=
  ["FREE Storewide Shipping".toList, "3% back in HP Rewards".toList,
   "Weekly Deals".toList, "Save $".toList, "Instant rebate".toList]

/-- The aggregate-rating block of `scrape_hp_pdp` (lines 350-360); the whole
block sits in a `try`, so the `AttributeError` from a truthy non-dict
`aggregateRating` leaves both values `None`. -/
def hpAggPair (lds : List PyVal) : PyVal × PyVal :=
  let prod := extract_product_from_jsonld lds
  if pyTruthy prod then
    let agg := pyOr (pyGet prod "aggregateRating".toList) (.dict [])
    if pyTruthy agg && !isDict agg then (PyVal.none, PyVal.none)
    else (pyGet agg "ratingValue".toList,
      pyOr (pyGet agg "reviewCount".toList) (pyGet agg "ratingCount".toList))
  else (PyVal.none, PyVal.none)

/-- `scrape_hp_pdp` (lines 293-373); every fallible step is wrapped in a
`try` in the source, so the function always returns a record. -/
def scrape_hp_pdp (lds : List PyVal) (p : HpProbes) (url now : Str) : OfferRecord :=
  let price_text := hpPriceText p
  { source_url := url
    price := money_to_float (liftStr price_text)
    currency := liftStr (pick_currency (liftStr price_text))
    availability := some (hpAvailability p)
    shipping_eta := (p.shipPat).map pyStrip
    promo_badges := promoScan p.promoVis hpPromoTable 0
    seller := "HP".toList
    aggregate_rating := (hpAggPair lds).1
    aggregate_review_count := (hpAggPair lds).2
    fetched_at := now }

/-! ## unified_scraper.py : review card admission (lines 584 and 889)

Both review scrapers append a card with the identical condition
`if rating is not None or (body and len(body.strip()) > 10) or
(title and len(title.strip()) > 3)`.
-/

/-- The card admission test shared verbatim by `scrape_hp_reviews_page`
(line 584) and `scrape_lenovo_reviews_page` (line 889). -/
def keepReviewCard (rating : Option ℚ) (title body : Option Str) : Bool :=
  rating.isSome ||
    (match body with
     | some b => !b.isEmpty && decide (10 < (pyStrip b).length)
     | Option.none => false) ||
    (match title with
     | some t => !t.isEmpty && decide (3 < (pyStrip t).length)
     | Option.none => false)

/-! ## unified_scraper.py : aggregate backfill in `main` (lines 1064-1093)

The aggregate dictionary built by a review-page scrape carries
`aggregate_rating` (a float, when one of the rating regexes matched) and
`aggregate_review_count` (an int, when one of the count regexes matched).
`main` merges them into the first captured offer record for the target with
`if agg.get(k) and not o.get(k): o[k] = agg.get(k)` for both keys.
-/

/-- Truthiness of the optional float `agg.get("aggregate_rating")`. -/
def truthyQ : Option ℚ → Bool
  | some q => decide (q ≠ 0)
  | Option.none => false

/-- Truthiness of the optional int `agg.get("aggregate_review_count")`. -/
def truthyN : Option ℕ → Bool
  | some n => decide (n ≠ 0)
  | Option.none => false

/-- Store an optional float into a record field. -/
def liftQ : Option ℚ → PyVal
  | some q => .num q
  | Option.none => .none

/-- Store an optional int into a record field. -/
def liftN : Option ℕ → PyVal
  | some n => .num (n : ℚ)
  | Option.none => .none

/-- The first backfill statement (lines 1070-1071): assign the discovered
rating when it is truthy and the record value is falsy. -/
def mergeRating (o : OfferRecord) (ar : Option ℚ) : OfferRecord :=
  if truthyQ ar && !pyTruthy o.aggregate_rating then { o with aggregate_rating := liftQ ar }
  else o

/-- The second backfill statement (lines 1072-1073): likewise for the
review count. -/
def mergeCount (o : OfferRecord) (ac : Option ℕ) : OfferRecord :=
  if truthyN ac && !pyTruthy o.aggregate_review_count then
    { o with aggregate_review_count := liftN ac }
  else o

/-- The aggregate backfill step of `main` (lines 1068-1073 and 1084-1089)
applied to one offer record: the two assignment statements in source
order. -/
def mergeAggregate (o : OfferRecord) (ar : Option ℚ) (ac : Option ℕ) : OfferRecord :=
  mergeCount (mergeRating o ar) ac

/-! ## unified_scraper.py : the output writer and the per-target loops of
`main` (lines 1023-1116) -/

/-- `sum(len(v) for v in m.values())` over a keyed document. -/
def totalCount {α : Type} (m : List (String × List α)) : ℕ :=
  (m.map (fun e => e.2.length)).sum

/-- The write step of `main` (lines 1098-1116): the offers document is
always rewritten; the reviews document is rewritten only when the total
review count over all vendors is positive, else the prior file survives,
and likewise for the QnA document. -/
def persistRun {α β : Type} (priorRev : List (String × List α))
    (priorQna : List (String × List β)) (reviews_map : List (String × List α))
    (qna_map : List (String × List β)) :
    List (String × List α) × List (String × List β) :=
  (if 0 < totalCount reviews_map then reviews_map else priorRev,
   if 0 < totalCount qna_map then qna_map else priorQna)

/-- The keys of `TARGETS` in `targets.py`, in declaration order. -/
def targetKeys : List String :=
  ["lenovo_e14_intel", "lenovo_e14_amd", "hp_probook_440", "hp_probook_450"]

/-- The keys of the Lenovo PDP loop of `main` (line 1046). -/
def lenovoPdpOrder : List String := ["lenovo_e14_intel", "lenovo_e14_amd"]

/-- The keys of the HP PDP loop of `main` (line 1055). -/
def hpPdpOrder : List String := ["hp_probook_440", "hp_probook_450"]

/-- The initial offers map `{k: [] for k in TARGETS}`. -/
def emptyOffers {α : Type} : List (String × List α) := targetKeys.map (fun k => (k, []))

/-- `offers[key].append(data)`. -/
def appendOffer {α : Type} (m : List (String × List α)) (k : String) (v : α) :
    List (String × List α) :=
  m.map (fun e => if e.1 = k then (e.1, e.2 ++ [v]) else e)

/-- The two PDP loops of `main` (lines 1045-1061): each target key is tried
once, a successful scrape appends its record, a raising scrape (`res k` is
`none`) is caught, logged and leaves the entry empty, and the loop always
proceeds to the next key. -/
def collectOffers {α : Type} (res : String → Option α) : List (String × List α) :=
  let step := fun (m : List (String × List α)) (k : String) =>
    match res k with
    | some v => appendOffer m k v
    | Option.none => m
  hpPdpOrder.foldl step (lenovoPdpOrder.foldl step emptyOffers)

/-! ## pdf_parser.py : `extract_specifications` (lines 87-122)

The regular-expression library is modelled as an oracle: `findall cat i`
is the list `re.findall(self.spec_patterns[cat][i], text, re.IGNORECASE |
re.MULTILINE)` for the input text, each item being a whole-match string or,
for patterns with several groups, a tuple of group strings.  The claims
settled against this embedding hold for every oracle behaviour, hence for
the concrete regular expressions of the source.
-/

/-- The ten specification categories of `self.spec_patterns`, in source
order. -/
inductive SpecCat where
  | cpu | ram | storage | display | graphics | battery | ports
  | dimensions | weight | operating_system
deriving DecidableEq

/-- The categories in dict order. -/
def specCats : List SpecCat :=
  [.cpu, .ram, .storage, .display, .graphics, .battery, .ports,
   .dimensions, .weight, .operating_system]

/-- How many patterns `self.spec_patterns` lists per category. -/
def numPatterns : SpecCat → ℕ
  | .cpu => 5
  | .ram => 4
  | .storage => 4
  | .display => 4
  | .graphics => 4
  | .battery => 4
  | .ports => 4
  | .dimensions => 3
  | .weight => 3
  | .operating_system => 4

/-- One `re.findall` item: a whole-match string, or a tuple of group
strings for multi-group patterns. -/
inductive MatchRes where
  | str : Str → MatchRes
  | tup : List Str → MatchRes

/-- Python `' '.join(match)`. -/
def joinTup : List Str → Str
  | [] => []
  | [x] => x
  | x :: xs => x ++ ' ' :: joinTup xs

/-- The tuple-to-string normalisation at the top of the cleaning loop. -/
def joinMatch : MatchRes → Str
  | .str s => s
  | .tup ss => joinTup ss

/-- Python `any(char.isdigit() for char in text)`. -/
def anyDigit (s : Str) : Bool := s.any Char.isDigit

/-- `PDFParser._is_valid_spec` (lines 124-150). -/
def is_valid_spec (cat : SpecCat) (text : Str) : Bool :=
  let lower := pyLower text
  match cat with
  | .cpu =>
    anyTermIn lower ["intel".toList, "amd".toList, "processor".toList, "core".toList,
      "ryzen".toList, "i3".toList, "i5".toList, "i7".toList, "i9".toList]
  | .ram =>
    anyTermIn lower ["gb".toList, "memory".toList, "ram".toList, "ddr".toList] &&
      anyTermIn text ["4".toList, "8".toList, "16".toList, "32".toList, "64".toList]
  | .storage =>
    anyTermIn lower ["gb".toList, "tb".toList, "ssd".toList, "nvme".toList,
      "storage".toList, "drive".toList]
  | .display =>
    anyTermIn lower ["display".toList, "screen".toList, "resolution".toList,
      "fhd".toList, "hd".toList, "1920".toList, "1366".toList, "\"".toList, "inch".toList]
  | .graphics =>
    anyTermIn lower ["graphics".toList, "gpu".toList, "intel".toList, "amd".toList,
      "nvidia".toList, "integrated".toList, "iris".toList, "xe".toList, "radeon".toList]
  | .battery =>
    anyTermIn lower ["wh".toList, "battery".toList, "cell".toList, "hour".toList,
      "life".toList]
  | .ports =>
    anyTermIn lower ["usb".toList, "hdmi".toList, "port".toList, "thunderbolt".toList,
      "ethernet".toList, "audio".toList, "jack".toList]
  | .weight =>
    anyTermIn lower ["kg".toList, "lb".toList, "pound".toList, "weight".toList] &&
      anyDigit text
  | .dimensions =>
    (containsSub lower "x".toList || containsSub text "×".toList) && anyDigit text
  | .operating_system =>
    anyTermIn lower ["windows".toList, "linux".toList, "ubuntu".toList,
      "chrome".toList, "mac".toList, "dos".toList]

/-- The bullet and markup characters rejected at the start of a candidate. -/
def startsWithBullet (s : Str) : Bool :=
  ['*', '•', '-', '(', '['].any (fun c => strStartsWith s [c])

/-- The header punctuation rejected at the end of a candidate. -/
def endsWithHeader (s : Str) : Bool :=
  [":".toList, "**".toList, "*".toList].any (fun suf => strEndsWith s suf)

/-- The cleaning and validation step of `extract_specifications`
(lines 100-114) for one raw match. -/
def cleanMatch (cat : SpecCat) (m : MatchRes) : Option Str :=
  let cleaned := pyStrip (joinMatch m)
  if !cleaned.isEmpty && decide (2 < cleaned.length) && decide (cleaned.length < 100) &&
      !startsWithBullet cleaned && !endsWithHeader cleaned && is_valid_spec cat cleaned
  then some cleaned
  else Option.none

/-- The category loop of `extract_specifications`: a category with raw
matches is cleaned, deduplicated (a `ZeroDivisionError` propagates as
`none`) and, when any candidate survives, contributes its first five
survivors; otherwise the category is skipped. -/
def extractGo (findall : SpecCat → ℕ → List MatchRes) :
    List SpecCat → Option (List (SpecCat × List Str))
  | [] => some []
  | cat :: cats =>
    let ms := (List.range (numPatterns cat)).flatMap (findall cat)
    if ms.isEmpty then extractGo findall cats
    else
      match deduplicate_matches (ms.filterMap (cleanMatch cat)) with
      | Option.none => Option.none
      | some unique =>
        if unique.isEmpty then extractGo findall cats
        else
          match extractGo findall cats with
          | Option.none => Option.none
          | some rest => some ((cat, unique.take 5) :: rest)

/-- `PDFParser.extract_specifications` (lines 87-122) over the findall
oracle. -/
def extract_specifications (findall : SpecCat → ℕ → List MatchRes) :
    Option (List (SpecCat × List Str)) :=
  extractGo findall specCats

/-! ## Shared concrete fixtures for witnesses and counterexamples -/

/-- A probe that sees no visible element at any index. -/
def noProbeStr : ℕ → Option Str := fun _ => Option.none

/-- A visibility probe where no phrase is visible. -/
def noVis : ℕ → Bool := fun _ => false

/-- Lenovo page probes with nothing visible. -/
def noLenovoProbes : LenovoProbes :=
  ⟨noProbeStr, noProbeStr, noProbeStr, noVis, noProbeStr, noProbeStr, noVis⟩

/-- HP page probes with nothing visible. -/
def noHpProbes : HpProbes :=
  ⟨noProbeStr, Option.none, false, false, false, Option.none, noVis⟩

/-- Lenovo probes whose first price selector sees a visible `$899.00`. -/
def dollarLenovoProbes : LenovoProbes :=
  ⟨fun i => if i = 0 then some "$899.00".toList else Option.none,
   noProbeStr, noProbeStr, noVis, noProbeStr, noProbeStr, noVis⟩

/-- The record produced by the Lenovo scraper on a page with no JSON-LD
and nothing visible: every extracted field is null or empty, but the URL
and timestamp are always present. -/
def lenovoEmptyRec (url now : Str) : OfferRecord :=
  { source_url := url, price := Option.none, currency := PyVal.none,
    availability := Option.none, shipping_eta := Option.none, promo_badges := [],
    seller := "Lenovo".toList, aggregate_rating := PyVal.none,
    aggregate_review_count := PyVal.none, fetched_at := now }

theorem scrape_lenovo_empty (url now : Str) :
    scrape_lenovo_pdp [] noLenovoProbes url now = some (lenovoEmptyRec url now) := rfl

/-! ## C10 -/

theorem extractGo_entries (findall : SpecCat → ℕ → List MatchRes) :
    ∀ cats m, extractGo findall cats = some m →
      ∀ cat vs, (cat, vs) ∈ m → 1 ≤ vs.length ∧ vs.length ≤ 5 := by
  intro cats
  induction cats with
  | nil =>
    intro m hm cat vs hmem
    simp only [extractGo, Option.some.injEq] at hm
    subst hm
    exact absurd hmem (by simp)
  | cons c cs ih =>
    intro m hm cat vs hmem
    simp only [extractGo] at hm
    by_cases hms : ((List.range (numPatterns c)).flatMap (findall c)).isEmpty
    · rw [if_pos hms] at hm
      exact ih m hm cat vs hmem
    · rw [if_neg hms] at hm
      cases hd : deduplicate_matches
          (((List.range (numPatterns c)).flatMap (findall c)).filterMap (cleanMatch c)) with
      | none =>
        rw [hd] at hm
        exact absurd hm (by simp)
      | some unique =>
        rw [hd] at hm
        dsimp only at hm
        by_cases hu : unique.isEmpty
        · rw [if_pos hu] at hm
          exact ih m hm cat vs hmem
        · rw [if_neg hu] at hm
          cases hrest : extractGo findall cs with
          | none =>
            rw [hrest] at hm
            exact absurd hm (by simp)
          | some rest =>
            rw [hrest] at hm
            dsimp only at hm
            simp only [Option.some.injEq] at hm
            subst hm
            rcases List.mem_cons.mp hmem with hhead | htail
            · have hvs : vs = unique.take 5 := by
                have := congrArg Prod.snd hhead
                simpa using this
              subst hvs
              have hne : unique ≠ [] := fun hnil => hu (by rw [hnil]; rfl)
              have : 0 < unique.length := List.length_pos.mpr hne
              constructor
              · simp only [List.length_take]
                omega
              · simp only [List.length_take]
                omega
            · exact ih rest hrest cat vs htail

/-- C10: every category key present in the mapping produced by
`extract_specifications` maps to a list of between one and five strings; a
category whose candidates all fail validation or deduplication is omitted
from the mapping rather than bound to an empty list. -/
theorem extract_specifications_entries (findall : SpecCat → ℕ → List MatchRes)
    (m : List (SpecCat × List Str)) (cat : SpecCat) (vs : List Str)
    (hm : extract_specifications findall = some m) (hmem : (cat, vs) ∈ m) :
    1 ≤ vs.length ∧ vs.length ≤ 5 :=
  extractGo_entries findall specCats m hm cat vs hmem

/-- A findall oracle whose only match is one CPU candidate. -/
def cpuFindall : SpecCat → ℕ → List MatchRes :=
  fun c i => if c = SpecCat.cpu ∧ i = 0 then [MatchRes.str "intel core i7".toList] else []

theorem extract_specifications_entries_witness :
    extract_specifications cpuFindall = some [(SpecCat.cpu, ["intel core i7".toList])] ∧
    (1 ≤ ["intel core i7".toList].length ∧ ["intel core i7".toList].length ≤ 5) :=
  ⟨by decide,
    extract_specifications_entries cpuFindall [(SpecCat.cpu, ["intel core i7".toList])]
      SpecCat.cpu ["intel core i7".toList] (by decide) (by decide)⟩

/-! ## C8 -/

/-- The review-card admission rule as the amended claim words it. -/
def keepReviewSpec (rating : Option ℚ) (title body : Option Str) : Prop :=
  rating.isSome = true ∨
    (∃ b, body = some b ∧ 10 < (pyStrip b).length) ∨
    (∃ t, title = some t ∧ 3 < (pyStrip t).length)

/-- C8 (amended): a review card is kept if and only if it has a non-null
rating, or a body whose stripped text is strictly longer than 10
characters, or a title whose stripped text is strictly longer than 3
characters.  The thresholds are strict, not the inclusive `at least 3` and
`at least 10` of the claim (see the counterexample). -/
theorem keepReviewCard_iff (rating : Option ℚ) (title body : Option Str) :
    keepReviewCard rating title body = true ↔ keepReviewSpec rating title body := by
  unfold keepReviewCard keepReviewSpec
  cases rating with
  | some q => simp
  | none =>
    cases body with
    | none =>
      cases title with
      | none => simp
      | some t =>
        rcases t with _ | ⟨c, t'⟩
        · simp [pyStrip]
        · simp
    | some b =>
      rcases b with _ | ⟨c, b'⟩
      · cases title with
        | none => simp [pyStrip]
        | some t =>
          rcases t with _ | ⟨d, t'⟩
          · simp [pyStrip]
          · simp [pyStrip]
      · cases title with
        | none => simp
        | some t =>
          rcases t with _ | ⟨d, t'⟩
          · simp [pyStrip]
          · simp

/-- C8 counterexample: a review card with no rating, the three character
title `abc` and the ten character body `0123456789` satisfies the claim's
inclusive thresholds, yet the code discards it, because both length tests
in the source are strict. -/
theorem keepReviewCard_counterexample :
    keepReviewCard Option.none (some "abc".toList) (some "0123456789".toList) = false ∧
    3 ≤ "abc".toList.length ∧ 10 ≤ "0123456789".toList.length := by decide

/-! ## C9 -/

theorem mergeRating_other (o : OfferRecord) (ar : Option ℚ) :
    (mergeRating o ar).source_url = o.source_url ∧
    (mergeRating o ar).price = o.price ∧
    (mergeRating o ar).currency = o.currency ∧
    (mergeRating o ar).availability = o.availability ∧
    (mergeRating o ar).shipping_eta = o.shipping_eta ∧
    (mergeRating o ar).promo_badges = o.promo_badges ∧
    (mergeRating o ar).seller = o.seller ∧
    (mergeRating o ar).fetched_at = o.fetched_at ∧
    (mergeRating o ar).aggregate_review_count = o.aggregate_review_count := by
  unfold mergeRating
  split <;> exact ⟨rfl, rfl, rfl, rfl, rfl, rfl, rfl, rfl, rfl⟩

theorem mergeCount_other (o : OfferRecord) (ac : Option ℕ) :
    (mergeCount o ac).source_url = o.source_url ∧
    (mergeCount o ac).price = o.price ∧
    (mergeCount o ac).currency = o.currency ∧
    (mergeCount o ac).availability = o.availability ∧
    (mergeCount o ac).shipping_eta = o.shipping_eta ∧
    (mergeCount o ac).promo_badges = o.promo_badges ∧
    (mergeCount o ac).seller = o.seller ∧
    (mergeCount o ac).fetched_at = o.fetched_at ∧
    (mergeCount o ac).aggregate_rating = o.aggregate_rating := by
  unfold mergeCount
  split <;> exact ⟨rfl, rfl, rfl, rfl, rfl, rfl, rfl, rfl, rfl⟩

theorem mergeRating_keep (o : OfferRecord) (ar : Option ℚ)
    (h : pyTruthy o.aggregate_rating = true) : mergeRating o ar = o := by
  unfold mergeRating
  rw [if_neg (by simp [h])]

theorem mergeRating_fill (o : OfferRecord) (ar : Option ℚ)
    (h0 : o.aggregate_rating = PyVal.none) (h : truthyQ ar = true) :
    (mergeRating o ar).aggregate_rating = liftQ ar := by
  unfold mergeRating
  rw [if_pos (by simp [h, h0, pyTruthy])]

theorem mergeCount_keep (o : OfferRecord) (ac : Option ℕ)
    (h : pyTruthy o.aggregate_review_count = true) : mergeCount o ac = o := by
  unfold mergeCount
  rw [if_neg (by simp [h])]

theorem mergeCount_fill (o : OfferRecord) (ac : Option ℕ)
    (h0 : o.aggregate_review_count = PyVal.none) (h : truthyN ac = true) :
    (mergeCount o ac).aggregate_review_count = liftN ac := by
  unfold mergeCount
  rw [if_pos (by simp [h, h0, pyTruthy])]

/-- C9 (amended): the aggregate backfill changes no field other than the two
aggregate fields; an aggregate field holding a truthy value (non-null and
nonzero) is never overwritten; a null aggregate field is filled by a truthy
discovered value.  The claim's stronger promise that any non-null value is
preserved fails for the falsy number zero (see the counterexample). -/
theorem mergeAggregate_frame (o : OfferRecord) (ar : Option ℚ) (ac : Option ℕ) :
    ((mergeAggregate o ar ac).source_url = o.source_url ∧
      (mergeAggregate o ar ac).price = o.price ∧
      (mergeAggregate o ar ac).currency = o.currency ∧
      (mergeAggregate o ar ac).availability = o.availability ∧
      (mergeAggregate o ar ac).shipping_eta = o.shipping_eta ∧
      (mergeAggregate o ar ac).promo_badges = o.promo_badges ∧
      (mergeAggregate o ar ac).seller = o.seller ∧
      (mergeAggregate o ar ac).fetched_at = o.fetched_at) ∧
    (pyTruthy o.aggregate_rating = true →
      (mergeAggregate o ar ac).aggregate_rating = o.aggregate_rating) ∧
    (o.aggregate_rating = PyVal.none → truthyQ ar = true →
      (mergeAggregate o ar ac).aggregate_rating = liftQ ar) ∧
    (pyTruthy o.aggregate_review_count = true →
      (mergeAggregate o ar ac).aggregate_review_count = o.aggregate_review_count) ∧
    (o.aggregate_review_count = PyVal.none → truthyN ac = true →
      (mergeAggregate o ar ac).aggregate_review_count = liftN ac) := by
  obtain ⟨r1, r2, r3, r4, r5, r6, r7, r8, r9⟩ := mergeRating_other o ar
  obtain ⟨c1, c2, c3, c4, c5, c6, c7, c8, c9⟩ := mergeCount_other (mergeRating o ar) ac
  refine ⟨⟨?_, ?_, ?_, ?_, ?_, ?_, ?_, ?_⟩, ?_, ?_, ?_, ?_⟩
  · unfold mergeAggregate; rw [c1, r1]
  · unfold mergeAggregate; rw [c2, r2]
  · unfold mergeAggregate; rw [c3, r3]
  · unfold mergeAggregate; rw [c4, r4]
  · unfold mergeAggregate; rw [c5, r5]
  · unfold mergeAggregate; rw [c6, r6]
  · unfold mergeAggregate; rw [c7, r7]
  · unfold mergeAggregate; rw [c8, r8]
  · intro h
    unfold mergeAggregate
    rw [mergeRating_keep o ar h]
    exact (mergeCount_other o ac).2.2.2.2.2.2.2.2
  · intro h0 h
    unfold mergeAggregate
    rw [c9]
    exact mergeRating_fill o ar h0 h
  · intro h
    unfold mergeAggregate
    rw [mergeCount_keep (mergeRating o ar) ac (by rw [r9]; exact h)]
    exact r9
  · intro h0 h
    unfold mergeAggregate
    exact mergeCount_fill (mergeRating o ar) ac (by rw [r9]; exact h0) h

/-- The record used to exercise the aggregate backfill. -/
def mergeWitnessRec : OfferRecord :=
  { source_url := "u".toList, price := Option.none, currency := PyVal.none,
    availability := Option.none, shipping_eta := Option.none, promo_badges := [],
    seller := "HP".toList, aggregate_rating := PyVal.num 3,
    aggregate_review_count := PyVal.none, fetched_at := "t".toList }

theorem mergeAggregate_frame_witness :
    (mergeAggregate mergeWitnessRec (some 5) (some 7)).aggregate_rating =
        mergeWitnessRec.aggregate_rating ∧
    (mergeAggregate mergeWitnessRec (some 5) (some 7)).aggregate_review_count =
        liftN (some 7) ∧
    (mergeAggregate mergeWitnessRec (some 5) (some 7)).price = mergeWitnessRec.price :=
  ⟨(mergeAggregate_frame mergeWitnessRec (some 5) (some 7)).2.1 (by decide),
    (mergeAggregate_frame mergeWitnessRec (some 5) (some 7)).2.2.2.2 rfl (by decide),
    (mergeAggregate_frame mergeWitnessRec (some 5) (some 7)).1.2.1⟩

/-- The record showing the counterexample: its aggregate rating is the
non-null number zero. -/
def mergeZeroRec : OfferRecord :=
  { source_url := "u".toList, price := Option.none, currency := PyVal.none,
    availability := Option.none, shipping_eta := Option.none, promo_badges := [],
    seller := "HP".toList, aggregate_rating := PyVal.num 0,
    aggregate_review_count := PyVal.none, fetched_at := "t".toList }

/-- C9 counterexample: an offer record whose `aggregate_rating` is the
non-null float `0.0` (a value JSON-LD `ratingValue` can supply) is
overwritten by the backfill, because the source tests truthiness
(`not o.get(..)`) rather than nullness. -/
theorem mergeAggregate_counterexample :
    mergeZeroRec.aggregate_rating = PyVal.num 0 ∧
    PyVal.num 0 ≠ PyVal.none ∧
    (mergeAggregate mergeZeroRec (some 4) Option.none).aggregate_rating = PyVal.num 4 :=
  ⟨rfl, fun h => PyVal.noConfusion h, rfl⟩

/-! ## C1 -/

/-- C1 (amended): the reviews document is preserved exactly when the run
produced zero review records summed over all vendors; as soon as any vendor
produced a record, the whole document is rewritten, including empty entries
for vendors whose extraction yielded nothing; likewise for the QnA
document. -/
theorem persistRun_total_gate {α β : Type} (priorRev : List (String × List α))
    (priorQna : List (String × List β)) (reviews_map : List (String × List α))
    (qna_map : List (String × List β)) :
    ((totalCount reviews_map = 0 →
        (persistRun priorRev priorQna reviews_map qna_map).1 = priorRev) ∧
      (0 < totalCount reviews_map →
        (persistRun priorRev priorQna reviews_map qna_map).1 = reviews_map)) ∧
    ((totalCount qna_map = 0 →
        (persistRun priorRev priorQna reviews_map qna_map).2 = priorQna) ∧
      (0 < totalCount qna_map →
        (persistRun priorRev priorQna reviews_map qna_map).2 = qna_map)) := by
  unfold persistRun
  refine ⟨⟨fun h => ?_, fun h => ?_⟩, ⟨fun h => ?_, fun h => ?_⟩⟩ <;> simp [h]

/-- A prior reviews document holding one review for the first HP vendor. -/
def priorRevDoc : List (String × List ℕ) :=
  [("lenovo_e14_intel", []), ("lenovo_e14_amd", []),
   ("hp_probook_440", [5]), ("hp_probook_450", [])]

/-- A run that extracted one review for the first Lenovo vendor and none
for any other vendor. -/
def runRevDoc : List (String × List ℕ) :=
  [("lenovo_e14_intel", [7]), ("lenovo_e14_amd", []),
   ("hp_probook_440", []), ("hp_probook_450", [])]

/-- An empty keyed QnA document. -/
def emptyQnaDoc : List (String × List ℕ) :=
  [("lenovo_e14_intel", []), ("lenovo_e14_amd", []),
   ("hp_probook_440", []), ("hp_probook_450", [])]

/-- C1 counterexample: the run produced zero reviews for vendor
`hp_probook_440`, whose prior document entry held a review, but because
another vendor produced a review the whole reviews document is rewritten
and the prior entry for `hp_probook_440` is replaced by an empty list.  The
write gate is on the total over all vendors, not per vendor. -/
theorem persistRun_counterexample :
    runRevDoc.lookup "hp_probook_440" = some [] ∧
    priorRevDoc.lookup "hp_probook_440" = some [5] ∧
    (persistRun priorRevDoc emptyQnaDoc runRevDoc emptyQnaDoc).1.lookup "hp_probook_440" =
      some [] := by decide

theorem persistRun_total_gate_witness :
    (persistRun priorRevDoc emptyQnaDoc runRevDoc emptyQnaDoc).1 = runRevDoc ∧
    (persistRun priorRevDoc emptyQnaDoc runRevDoc emptyQnaDoc).2 = emptyQnaDoc :=
  ⟨(persistRun_total_gate priorRevDoc emptyQnaDoc runRevDoc emptyQnaDoc).1.2 (by decide),
    (persistRun_total_gate priorRevDoc emptyQnaDoc runRevDoc emptyQnaDoc).2.1 (by decide)⟩

/-! ## C5 -/

/-- C5: for every target key of the registry, a completed run of the PDP
loops leaves exactly one offer record for that key when its scrape
succeeded and an empty entry when it raised; the outcome for each key
depends only on that key's own scrape result, so one target's failure never
blocks the others. -/
theorem collectOffers_per_target {α : Type} (res : String → Option α) (k : String)
    (hk : k ∈ targetKeys) :
    (collectOffers res).lookup k =
      some (match res k with | some v => [v] | Option.none => []) := by
  have e1 : ∀ v : α, ([] : List α) ++ [v] = [v] := fun v => rfl
  fin_cases hk <;>
    · simp only [collectOffers, lenovoPdpOrder, hpPdpOrder, List.foldl]
      rcases h1 : res "lenovo_e14_intel" with _ | v1 <;>
        rcases h2 : res "lenovo_e14_amd" with _ | v2 <;>
          rcases h3 : res "hp_probook_440" with _ | v3 <;>
            rcases h4 : res "hp_probook_450" with _ | v4 <;>
              simp [appendOffer, emptyOffers, targetKeys, List.lookup, h1, h2, h3, h4]

/-- A run whose Lenovo scrapes raise and whose HP scrapes succeed. -/
def hpOnlyRun : String → Option ℕ := fun k =>
  if k = "hp_probook_440" || k = "hp_probook_450" then some 9 else Option.none

theorem collectOffers_per_target_witness :
    (collectOffers hpOnlyRun).lookup "lenovo_e14_intel" = some [] ∧
    (collectOffers hpOnlyRun).lookup "hp_probook_450" = some [9] :=
  ⟨collectOffers_per_target hpOnlyRun "lenovo_e14_intel" (by decide),
    collectOffers_per_target hpOnlyRun "hp_probook_450" (by decide)⟩

/-! ## C2 -/

theorem mtfGo_range (t : Str) : ∀ ps q, mtfGo t ps = some q → 10 ≤ q ∧ q ≤ 50000 := by
  intro ps
  induction ps with
  | nil =>
    intro q h
    exact absurd h (by simp [mtfGo])
  | cons p ps ih =>
    intro q h
    simp only [mtfGo] at h
    cases hs : searchAt p t with
    | none =>
      rw [hs] at h
      exact ih q h
    | some g =>
      rw [hs] at h
      dsimp only at h
      by_cases hr : 10 ≤ parseDec g ∧ parseDec g ≤ 50000
      · rw [if_pos hr] at h
        simp only [Option.some.injEq] at h
        subst h
        exact hr
      · rw [if_neg hr] at h
        exact ih q h

theorem money_to_float_cases (v : PyVal) :
    money_to_float v = Option.none ∨
    (∃ q, money_to_float v = some q ∧ 10 ≤ q ∧ q ≤ 50000) ∨
    (∃ q, v = PyVal.num q ∧ money_to_float v = some q) := by
  cases v with
  | none => exact Or.inl rfl
  | num q => exact Or.inr (Or.inr ⟨q, rfl, rfl⟩)
  | str s =>
    cases hm : money_to_float (.str s) with
    | none => exact Or.inl rfl
    | some q =>
      simp only [money_to_float] at hm
      exact Or.inr (Or.inl ⟨q, rfl, mtfGo_range _ _ q hm⟩)
  | list l =>
    cases hm : money_to_float (.list l) with
    | none => exact Or.inl rfl
    | some q =>
      simp only [money_to_float] at hm
      exact Or.inr (Or.inl ⟨q, rfl, mtfGo_range _ _ q hm⟩)
  | dict d =>
    cases hm : money_to_float (.dict d) with
    | none => exact Or.inl rfl
    | some q =>
      simp only [money_to_float] at hm
      exact Or.inr (Or.inl ⟨q, rfl, mtfGo_range _ _ q hm⟩)

theorem mtf_liftStr_cases (o : Option Str) :
    money_to_float (liftStr o) = Option.none ∨
    (∃ q, money_to_float (liftStr o) = some q ∧ 10 ≤ q ∧ q ≤ 50000) := by
  rcases money_to_float_cases (liftStr o) with h | h | ⟨q, hv, _⟩
  · exact Or.inl h
  · exact Or.inr h
  · exact absurd hv (by cases o <;> simp [liftStr])

/-- C2 (amended): every offer record carries its source URL and fetch
timestamp, and a missing price is null, never fabricated; an HP price is
always null or within [10, 50000]; a Lenovo price is null, within
[10, 50000], or equal to the raw numeric JSON-LD price value, which the
numeric branch of `money_to_float` (line 28) returns without the range
check that every string-derived price passes. -/
theorem offer_price_range (lds : List PyVal) (p : LenovoProbes) (hp : HpProbes)
    (url now : Str) (rec : OfferRecord)
    (hrec : scrape_lenovo_pdp lds p url now = some rec) :
    (rec.source_url = url ∧ rec.fetched_at = now ∧
      (rec.price = Option.none ∨
        (∃ q, rec.price = some q ∧ 10 ≤ q ∧ q ≤ 50000) ∨
        (∃ q, lenovoPriceVal lds = PyVal.num q ∧ rec.price = some q))) ∧
    ((scrape_hp_pdp lds hp url now).source_url = url ∧
      (scrape_hp_pdp lds hp url now).fetched_at = now ∧
      ((scrape_hp_pdp lds hp url now).price = Option.none ∨
        (∃ q, (scrape_hp_pdp lds hp url now).price = some q ∧ 10 ≤ q ∧ q ≤ 50000))) := by
  refine ⟨?_, rfl, rfl, mtf_liftStr_cases (hpPriceText hp)⟩
  unfold scrape_lenovo_pdp at hrec
  dsimp only at hrec
  split at hrec
  · exact absurd hrec (by simp)
  · split at hrec
    · exact absurd hrec (by simp)
    · simp only [Option.some.injEq] at hrec
      subst hrec
      refine ⟨rfl, rfl, ?_⟩
      show orFloat (money_to_float (lenovoPriceVal lds))
          (money_to_float (liftStr (lenovoPriceText p))) = Option.none ∨ _ ∨ _
      rcases money_to_float_cases (lenovoPriceVal lds) with h1 | ⟨q, hq, hr1, hr2⟩ | ⟨q, hv, hq⟩
      · rcases mtf_liftStr_cases (lenovoPriceText p) with h2 | ⟨q2, hq2, hr⟩
        · exact Or.inl (by simp [orFloat, h1, h2])
        · exact Or.inr (Or.inl ⟨q2, by simp [orFloat, h1, hq2], hr⟩)
      · have hq0 : q ≠ 0 := by
          intro h0
          rw [h0] at hr1
          exact absurd hr1 (by norm_num)
        exact Or.inr (Or.inl ⟨q, by simp [orFloat, hq, hq0], hr1, hr2⟩)
      · by_cases hq0 : q = 0
        · rcases mtf_liftStr_cases (lenovoPriceText p) with h2 | ⟨q2, hq2, hr⟩
          · exact Or.inl (by simp [orFloat, hq, hq0, h2])
          · exact Or.inr (Or.inl ⟨q2, by simp [orFloat, hq, hq0, hq2], hr⟩)
        · exact Or.inr (Or.inr ⟨q, hv, by simp [orFloat, hq, hq0]⟩)

/-- A JSON-LD product node whose offer price is the out-of-range number 5. -/
def numPriceLds : List PyVal :=
  [PyVal.dict [("@type".toList, PyVal.str "Product".toList),
    ("offers".toList, PyVal.dict [("price".toList, PyVal.num 5)])]]

/-- C2 counterexample: a JSON-LD numeric price of 5 is emitted verbatim as
the record price although it lies outside [10, 50000]; the numeric branch
of `money_to_float` skips the plausibility check applied to every
string-derived price. -/
theorem offer_price_range_counterexample :
    (scrape_lenovo_pdp numPriceLds noLenovoProbes "u".toList "t".toList).map
        OfferRecord.price = some (some 5) ∧
    ¬(10 ≤ (5 : ℚ)) := by
  exact ⟨rfl, by decide⟩

theorem offer_price_range_witness :
    ((lenovoEmptyRec "u".toList "t".toList).source_url = "u".toList ∧
      (lenovoEmptyRec "u".toList "t".toList).fetched_at = "t".toList ∧
      ((lenovoEmptyRec "u".toList "t".toList).price = Option.none ∨
        (∃ q, (lenovoEmptyRec "u".toList "t".toList).price = some q ∧ 10 ≤ q ∧ q ≤ 50000) ∨
        (∃ q, lenovoPriceVal [] = PyVal.num q ∧
          (lenovoEmptyRec "u".toList "t".toList).price = some q))) ∧
    ((scrape_hp_pdp [] noHpProbes "u".toList "t".toList).source_url = "u".toList ∧
      (scrape_hp_pdp [] noHpProbes "u".toList "t".toList).fetched_at = "t".toList ∧
      ((scrape_hp_pdp [] noHpProbes "u".toList "t".toList).price = Option.none ∨
        (∃ q, (scrape_hp_pdp [] noHpProbes "u".toList "t".toList).price = some q ∧
          10 ≤ q ∧ q ≤ 50000))) :=
  offer_price_range [] noLenovoProbes noHpProbes "u".toList "t".toList _
    (scrape_lenovo_empty "u".toList "t".toList)

/-! ## C4 -/

theorem lenovoAvailSelLoop_cases (probe : ℕ → Option Str) : ∀ fuel i,
    lenovoAvailSelLoop probe i fuel = Option.none ∨
    lenovoAvailSelLoop probe i fuel = some "InStock".toList ∨
    lenovoAvailSelLoop probe i fuel = some "OutOfStock".toList := by
  intro fuel
  induction fuel with
  | zero => intro i; exact Or.inl rfl
  | succ fuel ih =>
    intro i
    simp only [lenovoAvailSelLoop]
    cases probe i with
    | none => exact ih (i + 1)
    | some t =>
      dsimp only
      split
      · split
        · exact Or.inr (Or.inl rfl)
        · split
          · exact Or.inr (Or.inr rfl)
          · exact ih (i + 1)
      · exact ih (i + 1)

theorem phraseScan_cases (vis : ℕ → Bool) : ∀ tbl i,
    phraseScan vis tbl i = Option.none ∨
    ∃ pr ∈ tbl, phraseScan vis tbl i = some pr.2 := by
  intro tbl
  induction tbl with
  | nil => intro i; exact Or.inl rfl
  | cons e rest ih =>
    intro i
    obtain ⟨ph, code⟩ := e
    simp only [phraseScan]
    split
    · exact Or.inr ⟨(ph, code), by simp, rfl⟩
    · rcases ih (i + 1) with h | ⟨pr, hmem, heq⟩
      · exact Or.inl h
      · exact Or.inr ⟨pr, by simp [hmem], heq⟩

theorem lenovoAvailability_cases (lds : List PyVal) (p : LenovoProbes) :
    lenovoAvailability lds p = Option.none ∨
    lenovoAvailability lds p =
      some (lastSegment (pyStr (pyGet (lenovoOffers lds) "availability".toList))) ∨
    lenovoAvailability lds p = some "InStock".toList ∨
    lenovoAvailability lds p = some "OutOfStock".toList ∨
    lenovoAvailability lds p = some "PreOrder".toList ∨
    lenovoAvailability lds p = some "Discontinued".toList := by
  have hphCodes : ∀ pr ∈ lenovoPhraseTable,
      pr.2 = "InStock".toList ∨ pr.2 = "OutOfStock".toList ∨
      pr.2 = "PreOrder".toList ∨ pr.2 = "Discontinued".toList := by decide
  unfold lenovoAvailability
  dsimp only
  rcases lenovoAvailSelLoop_cases p.availSel 4 0 with hsel | hsel | hsel <;>
    rcases phraseScan_cases p.availPhraseVis lenovoPhraseTable 0 with hph | ⟨pr, hmem, hph⟩ <;>
      rw [hsel, hph] <;> dsimp only <;> split_ifs <;> try simp
  all_goals rcases hphCodes pr hmem with h | h | h | h <;> rw [h] <;> simp

theorem hpAvailability_cases (p : HpProbes) :
    hpAvailability p = "UNKNOWN".toList ∨ hpAvailability p = "IN_STOCK".toList ∨
    hpAvailability p = "OUT_OF_STOCK".toList ∨ hpAvailability p = "CUSTOMIZABLE".toList := by
  unfold hpAvailability
  split_ifs <;> simp

/-- C4 (amended): the HP scraper's availability is always one of the four
codes UNKNOWN, IN_STOCK, OUT_OF_STOCK, CUSTOMIZABLE (spelled so, not with
the enumeration spellings of the claim); the Lenovo scraper's availability
is null, or the last slash-separated segment of whatever availability value
the JSON-LD offer carried (an arbitrary string, unchecked against the
enumeration), or one of InStock, OutOfStock, PreOrder, Discontinued from
the selector and phrase fallbacks. -/
theorem availability_codes (lds : List PyVal) (p : LenovoProbes) (hp : HpProbes)
    (url now : Str) (rec : OfferRecord)
    (hrec : scrape_lenovo_pdp lds p url now = some rec) :
    ((scrape_hp_pdp lds hp url now).availability = some "UNKNOWN".toList ∨
      (scrape_hp_pdp lds hp url now).availability = some "IN_STOCK".toList ∨
      (scrape_hp_pdp lds hp url now).availability = some "OUT_OF_STOCK".toList ∨
      (scrape_hp_pdp lds hp url now).availability = some "CUSTOMIZABLE".toList) ∧
    (rec.availability = Option.none ∨
      rec.availability =
        some (lastSegment (pyStr (pyGet (lenovoOffers lds) "availability".toList))) ∨
      rec.availability = some "InStock".toList ∨
      rec.availability = some "OutOfStock".toList ∨
      rec.availability = some "PreOrder".toList ∨
      rec.availability = some "Discontinued".toList) := by
  constructor
  · have hp4 := hpAvailability_cases hp
    have hshow : (scrape_hp_pdp lds hp url now).availability = some (hpAvailability hp) := rfl
    rcases hp4 with h | h | h | h <;> rw [hshow, h] <;> simp
  · have hav : rec.availability = lenovoAvailability lds p := by
      unfold scrape_lenovo_pdp at hrec
      dsimp only at hrec
      split at hrec
      · exact absurd hrec (by simp)
      · split at hrec
        · exact absurd hrec (by simp)
        · simp only [Option.some.injEq] at hrec
          subst hrec
          rfl
    rw [hav]
    exact lenovoAvailability_cases lds p

/-- C4 counterexample: an HP page with no visible availability phrase
yields the code `UNKNOWN`, and none of the four codes the HP scraper can
emit (UNKNOWN, IN_STOCK, OUT_OF_STOCK, CUSTOMIZABLE) is among the six
enumeration spellings of the claim. -/
theorem availability_codes_counterexample :
    (scrape_hp_pdp [] noHpProbes "u".toList "t".toList).availability =
      some "UNKNOWN".toList ∧
    "UNKNOWN".toList ∉ ["InStock".toList, "OutOfStock".toList, "PreOrder".toList,
      "Discontinued".toList, "Customizable".toList, "Unknown".toList] :=
  ⟨rfl, by decide⟩

theorem availability_codes_witness :
    ((scrape_hp_pdp [] noHpProbes "u2".toList "t".toList).availability =
        some "UNKNOWN".toList ∨
      (scrape_hp_pdp [] noHpProbes "u2".toList "t".toList).availability =
        some "IN_STOCK".toList ∨
      (scrape_hp_pdp [] noHpProbes "u2".toList "t".toList).availability =
        some "OUT_OF_STOCK".toList ∨
      (scrape_hp_pdp [] noHpProbes "u2".toList "t".toList).availability =
        some "CUSTOMIZABLE".toList) ∧
    ((lenovoEmptyRec "u2".toList "t".toList).availability = Option.none ∨
      (lenovoEmptyRec "u2".toList "t".toList).availability =
        some (lastSegment (pyStr (pyGet (lenovoOffers []) "availability".toList))) ∨
      (lenovoEmptyRec "u2".toList "t".toList).availability = some "InStock".toList ∨
      (lenovoEmptyRec "u2".toList "t".toList).availability = some "OutOfStock".toList ∨
      (lenovoEmptyRec "u2".toList "t".toList).availability = some "PreOrder".toList ∨
      (lenovoEmptyRec "u2".toList "t".toList).availability = some "Discontinued".toList) :=
  availability_codes [] noLenovoProbes noHpProbes "u2".toList "t".toList _
    (scrape_lenovo_empty "u2".toList "t".toList)

/-! ## C3 -/

theorem pyTruthy_of_get (v : PyVal) (k : Str) (h : pyTruthy (pyGet v k) = true) :
    isDict v = true ∧ pyTruthy v = true := by
  cases v with
  | dict d =>
    refine ⟨rfl, ?_⟩
    cases d with
    | nil => simp [pyGet, pyTruthy] at h
    | cons e es => simp [pyTruthy]
  | none => simp [pyGet, pyTruthy] at h
  | num q => simp [pyGet, pyTruthy] at h
  | str s => simp [pyGet, pyTruthy] at h
  | list l => simp [pyGet, pyTruthy] at h

theorem orFloat_truthy (a b : Option ℚ) (h : truthyQ a = true) : orFloat a b = a := by
  cases a with
  | none => simp [truthyQ] at h
  | some q =>
    simp only [truthyQ, decide_eq_true_eq] at h
    simp [orFloat, h]

theorem pyOr_truthy (a b : PyVal) (h : pyTruthy a = true) : pyOr a b = a := by
  unfold pyOr
  rw [if_pos h]

/-- The three record fields of a successful Lenovo scrape, in terms of the
named sub-computations. -/
theorem scrape_lenovo_fields (lds : List PyVal) (p : LenovoProbes) (url now : Str)
    (rec : OfferRecord) (hrec : scrape_lenovo_pdp lds p url now = some rec) :
    rec.price = orFloat (money_to_float (lenovoPriceVal lds))
        (money_to_float (liftStr (lenovoPriceText p))) ∧
    rec.currency = pyOr (pyOr (lenovoCur lds) (liftStr (pick_currency (lenovoPriceVal lds))))
        (liftStr (pick_currency (liftStr (lenovoPriceText p)))) ∧
    rec.availability = lenovoAvailability lds p := by
  unfold scrape_lenovo_pdp at hrec
  dsimp only at hrec
  split at hrec
  · exact absurd hrec (by simp)
  · split at hrec
    · exact absurd hrec (by simp)
    · simp only [Option.some.injEq] at hrec
      subst hrec
      exact ⟨rfl, rfl, rfl⟩

/-- When the structured data carries a truthy availability whose last
segment is non-empty, the availability comes from it alone. -/
theorem lenovoAvailability_ld (lds : List PyVal) (p : LenovoProbes)
    (hav : pyTruthy (pyGet (lenovoOffers lds) "availability".toList) = true)
    (hseg : lastSegment (pyStr (pyGet (lenovoOffers lds) "availability".toList)) ≠ []) :
    lenovoAvailability lds p =
      some (lastSegment (pyStr (pyGet (lenovoOffers lds) "availability".toList))) := by
  obtain ⟨_, htr⟩ := pyTruthy_of_get _ _ hav
  have hcond : (pyTruthy (lenovoOffers lds) &&
      pyTruthy (pyGet (lenovoOffers lds) "availability".toList)) = true := by
    rw [htr, hav]
    rfl
  have hT : strTruthy
      (some (lastSegment (pyStr (pyGet (lenovoOffers lds) "availability".toList)))) = true := by
    cases hls : lastSegment (pyStr (pyGet (lenovoOffers lds) "availability".toList)) with
    | nil => exact absurd hls hseg
    | cons c cs => simp [strTruthy]
  unfold lenovoAvailability
  dsimp only
  rw [if_pos hcond, if_pos hT, if_pos hT]

/-- C3 (amended): when the JSON-LD offer yields a truthy parsed price, a
truthy priceCurrency and a truthy availability with non-empty last segment,
the price, currency and availability of the resulting record do not depend
on what the selector cascade or the free-text fallback observed.  The
original claim fails in two ways (see the counterexample): the cascades
still execute, and when the structured data resolves price and availability
but not currency, the currency is taken from the selector-found text. -/
theorem structured_data_authoritative (lds : List PyVal) (p1 p2 : LenovoProbes)
    (url now : Str) (r1 r2 : OfferRecord)
    (h1 : scrape_lenovo_pdp lds p1 url now = some r1)
    (h2 : scrape_lenovo_pdp lds p2 url now = some r2)
    (hpr : truthyQ (money_to_float (lenovoPriceVal lds)) = true)
    (hcur : pyTruthy (lenovoCur lds) = true)
    (hav : pyTruthy (pyGet (lenovoOffers lds) "availability".toList) = true)
    (hseg : lastSegment (pyStr (pyGet (lenovoOffers lds) "availability".toList)) ≠ []) :
    r1.price = r2.price ∧ r1.currency = r2.currency ∧ r1.availability = r2.availability := by
  obtain ⟨hp1, hc1, ha1⟩ := scrape_lenovo_fields lds p1 url now r1 h1
  obtain ⟨hp2, hc2, ha2⟩ := scrape_lenovo_fields lds p2 url now r2 h2
  refine ⟨?_, ?_, ?_⟩
  · rw [hp1, hp2, orFloat_truthy _ _ hpr, orFloat_truthy _ _ hpr]
  · rw [hc1, hc2]
    simp only [pyOr_truthy _ _ hcur]
  · rw [ha1, ha2, lenovoAvailability_ld lds p1 hav hseg, lenovoAvailability_ld lds p2 hav hseg]

/-- A JSON-LD product whose offer resolves price and availability but not
currency. -/
def authLdsNoCur : List PyVal :=
  [PyVal.dict [("@type".toList, PyVal.str "Product".toList),
    ("offers".toList, PyVal.dict
      [("price".toList, PyVal.str "799.99".toList),
       ("availability".toList, PyVal.str "https://schema.org/InStock".toList)])]]

/-- C3 counterexample: structured data resolves both price (799.99, in
range and truthy) and availability (InStock) on this page, yet two runs
that differ only in what the price selector cascade observed produce
different records: the run whose cascade saw `$899.00` emits currency USD,
the run whose cascade saw nothing emits a null currency.  The structured
data carries no priceCurrency, so line 271 falls through to the
selector-found text. -/
theorem structured_claim_counterexample :
    truthyQ (money_to_float (lenovoPriceVal authLdsNoCur)) = true ∧
    (scrape_lenovo_pdp authLdsNoCur dollarLenovoProbes "u".toList "t".toList).map
        OfferRecord.availability = some (some "InStock".toList) ∧
    (scrape_lenovo_pdp authLdsNoCur noLenovoProbes "u".toList "t".toList).map
        OfferRecord.availability = some (some "InStock".toList) ∧
    (scrape_lenovo_pdp authLdsNoCur dollarLenovoProbes "u".toList "t".toList).map
        OfferRecord.currency = some (PyVal.str "USD".toList) ∧
    (scrape_lenovo_pdp authLdsNoCur noLenovoProbes "u".toList "t".toList).map
        OfferRecord.currency = some PyVal.none ∧
    PyVal.str "USD".toList ≠ PyVal.none :=
  ⟨rfl, rfl, rfl, rfl, rfl, fun h => PyVal.noConfusion h⟩

/-- The same product node with a priceCurrency, for the witness. -/
def authLds : List PyVal :=
  [PyVal.dict [("@type".toList, PyVal.str "Product".toList),
    ("offers".toList, PyVal.dict
      [("price".toList, PyVal.str "799.99".toList),
       ("priceCurrency".toList, PyVal.str "USD".toList),
       ("availability".toList, PyVal.str "https://schema.org/InStock".toList)])]]

/-- Lenovo probes whose first shipping selector sees a shipping estimate. -/
def shipLenovoProbes : LenovoProbes :=
  ⟨noProbeStr, noProbeStr, noProbeStr, noVis,
   (fun i => if i = 0 then some "Ships in 2 days".toList else Option.none),
   noProbeStr, noVis⟩

/-- The record scraped from `authLds` with nothing visible on the page. -/
def authRec (url now : Str) : OfferRecord :=
  { source_url := url, price := some (mkRat 79999 100),
    currency := PyVal.str "USD".toList, availability := some "InStock".toList,
    shipping_eta := Option.none, promo_badges := [], seller := "Lenovo".toList,
    aggregate_rating := PyVal.none, aggregate_review_count := PyVal.none,
    fetched_at := now }

/-- The record scraped from `authLds` when a shipping selector fires: it
differs from `authRec` in the shipping field, but not in price, currency or
availability. -/
def authRecShip (url now : Str) : OfferRecord :=
  { source_url := url, price := some (mkRat 79999 100),
    currency := PyVal.str "USD".toList, availability := some "InStock".toList,
    shipping_eta := some "Ships in 2 days".toList, promo_badges := [],
    seller := "Lenovo".toList, aggregate_rating := PyVal.none,
    aggregate_review_count := PyVal.none, fetched_at := now }

theorem structured_data_authoritative_witness :
    (authRec "u".toList "t".toList).price = (authRecShip "u".toList "t".toList).price ∧
    (authRec "u".toList "t".toList).currency = (authRecShip "u".toList "t".toList).currency ∧
    (authRec "u".toList "t".toList).availability =
      (authRecShip "u".toList "t".toList).availability :=
  structured_data_authoritative authLds noLenovoProbes shipLenovoProbes
    "u".toList "t".toList _ _ rfl rfl rfl rfl rfl (by decide)
